import Mathlib

/-!
Verification of the rust-pkl protocol engine: a shallow embedding of the
binary value decoder (`src/decoder.rs`), the server error-string parser
(`src/errors.rs`) and the evaluator session (`src/evaluator.rs`), together
with theorems settling the specification's claims about them.

Byte streams are modelled as `List Nat` (each element one wire byte); a
decoder consumes a prefix and returns the decoded value together with the
unconsumed tail.  Rust panics (`unimplemented!`, out-of-bounds indexing)
are modelled as an explicit `panic` outcome, distinct from returned errors.
-/

namespace RustPkl

/-! ## MessagePack markers (the `rmp::Marker` dispatch of `Marker::from_u8`) -/

/-- A MessagePack marker byte, decoded per the `rmp` crate's `Marker::from_u8`. -/
inductive Marker where
  | FixPos (n : Nat)
  | FixNeg (n : Int)
  | FixMap (n : Nat)
  | FixArray (n : Nat)
  | FixStr (n : Nat)
  | Null
  | Reserved
  | False
  | True
  | Bin8 | Bin16 | Bin32
  | Ext8 | Ext16 | Ext32
  | F32 | F64
  | U8 | U16 | U32 | U64
  | I8 | I16 | I32 | I64
  | FixExt1 | FixExt2 | FixExt4 | FixExt8 | FixExt16
  | Str8 | Str16 | Str32
  | Array16 | Array32
  | Map16 | Map32
  deriving DecidableEq, Repr

/-- Decode one marker byte, mirroring `rmp`'s `Marker::from_u8`. -/
def markerFromByte (b : Nat) : Marker :=
  if b ≤ 0x7f then .FixPos b
  else if b ≤ 0x8f then .FixMap (b - 0x80)
  else if b ≤ 0x9f then .FixArray (b - 0x90)
  else if b ≤ 0xbf then .FixStr (b - 0xa0)
  else if b = 0xc0 then .Null
  else if b = 0xc1 then .Reserved
  else if b = 0xc2 then .False
  else if b = 0xc3 then .True
  else if b = 0xc4 then .Bin8
  else if b = 0xc5 then .Bin16
  else if b = 0xc6 then .Bin32
  else if b = 0xc7 then .Ext8
  else if b = 0xc8 then .Ext16
  else if b = 0xc9 then .Ext32
  else if b = 0xca then .F32
  else if b = 0xcb then .F64
  else if b = 0xcc then .U8
  else if b = 0xcd then .U16
  else if b = 0xce then .U32
  else if b = 0xcf then .U64
  else if b = 0xd0 then .I8
  else if b = 0xd1 then .I16
  else if b = 0xd2 then .I32
  else if b = 0xd3 then .I64
  else if b = 0xd4 then .FixExt1
  else if b = 0xd5 then .FixExt2
  else if b = 0xd6 then .FixExt4
  else if b = 0xd7 then .FixExt8
  else if b = 0xd8 then .FixExt16
  else if b = 0xd9 then .Str8
  else if b = 0xda then .Str16
  else if b = 0xdb then .Str32
  else if b = 0xdc then .Array16
  else if b = 0xdd then .Array32
  else if b = 0xde then .Map16
  else if b = 0xdf then .Map32
  else .FixNeg ((b : Int) - 256)

/-! ## The decoded value tree (`src/server.rs`, `Value` and `Object`) -/

/-- The recursive runtime value tree of `server.rs`.  `Object` inlines the
Rust `Object` struct (`class_name`, `module_uri`, `properties`); the
`HashMap<String, Value>` of properties is modelled as an insertion-ordered
association list with replace-on-duplicate-key semantics.  Floats are
modelled by their wire width and raw big-endian bit pattern, since no claim
depends on IEEE arithmetic. -/
inductive Value where
  | Null
  | Int (i : Int)
  | Uint (n : Nat)
  | Float (width : Nat) (bits : Nat)
  | Bool (b : Bool)
  | String (s : String)
  | Function
  | Object (class_name : String) (module_uri : String)
      (properties : List (String × Value))
  | Array (elems : List Value)
  | Map (entries : List (Value × Value))
  | Mapping (entries : List (Value × Value))
  deriving Repr

/-- The `TryFrom<Value> for String` impl of `server.rs`: strings convert,
everything else is `UnexpectedValue` (modelled as `none`). -/
def tryIntoString : Value → Option String
  | .String s => some s
  | _ => none

/-! ## Decoder errors (`src/errors.rs`, `ValueError`) -/

/-- The `ValueError` taxonomy of `errors.rs`.  Payloads carried only for the
`InvalidMarker` case, which is the one the claims inspect. -/
inductive ValueError where
  | io
  | unexpectedValue
  | read
  | utf8
  | markerRead
  | invalidMarker (m : Marker)
  deriving DecidableEq, Repr

/-- Outcome of running a decoder over a byte stream: a value plus the
unconsumed tail, a returned error, a Rust panic (`unimplemented!` or an
out-of-bounds index), or fuel exhaustion of the embedding (never the code's
own behaviour; all theorems account for it explicitly). -/
inductive DRes (α : Type) where
  | ok (a : α) (rest : List Nat)
  | err (e : ValueError)
  | panic
  | outOfFuel
  deriving DecidableEq, Repr

/-- Sequence two decoding steps, threading the unconsumed tail and
propagating errors, panics and fuel exhaustion. -/
def DRes.bind {α β : Type} : DRes α → (α → List Nat → DRes β) → DRes β
  | .ok a rest, k => k a rest
  | .err e, _ => .err e
  | .panic, _ => .panic
  | .outOfFuel, _ => .outOfFuel

/-- Map a pure function over a decode outcome. -/
def DRes.map {α β : Type} (g : α → β) : DRes α → DRes β
  | .ok a rest => .ok (g a) rest
  | .err e => .err e
  | .panic => .panic
  | .outOfFuel => .outOfFuel

/-! ## Primitive byte readers -/

/-- Read one byte (`RmpRead::read_data_u8`); `none` models an I/O error on a
truncated stream. -/
def readByte : List Nat → Option (Nat × List Nat)
  | [] => none
  | b :: r => some (b, r)

/-- Read `k` bytes big-endian into a `Nat` (`read_data_u16`/`u32`/`u64`). -/
def readBE : Nat → List Nat → Option (Nat × List Nat)
  | 0, bs => some (0, bs)
  | _ + 1, [] => none
  | k + 1, b :: r =>
    match readBE k r with
    | none => none
    | some (v, rest) => some (b * 256 ^ k + v, rest)

/-- Read exactly `len` bytes (`Read::read_exact`); fails on truncation. -/
def readN : Nat → List Nat → Option (List Nat × List Nat)
  | 0, bs => some ([], bs)
  | _ + 1, [] => none
  | n + 1, b :: r =>
    match readN n r with
    | none => none
    | some (buf, rest) => some (b :: buf, rest)

/-- Two's-complement reinterpretation of a `k`-bit unsigned value. -/
def toSigned (k : Nat) (v : Nat) : Int :=
  if v < 2 ^ (k - 1) then (v : Int) else (v : Int) - 2 ^ k

/-! ## UTF-8 validation (`String::from_utf8`) -/

/-- Is `b` a UTF-8 continuation byte (`0x80..=0xBF`)? -/
def isCont (b : Nat) : Bool := 0x80 ≤ b && b < 0xC0

/-- Strict UTF-8 decoding of a byte list, mirroring `String::from_utf8`:
rejects stray continuation bytes, overlong encodings, surrogate code points
and values above `U+10FFFF`.  `none` models `FromUtf8Error`. -/
def utf8Decode : List Nat → Option (List Char)
  | [] => some []
  | b :: rest =>
    if b < 0x80 then
      match utf8Decode rest with
      | none => none
      | some cs => some (Char.ofNat b :: cs)
    else if b < 0xC2 then none
    else if b < 0xE0 then
      match rest with
      | [] => none
      | c1 :: rest1 =>
        if isCont c1 then
          match utf8Decode rest1 with
          | none => none
          | some cs => some (Char.ofNat ((b - 0xC0) * 0x40 + (c1 - 0x80)) :: cs)
        else none
    else if b < 0xF0 then
      match rest with
      | c1 :: c2 :: rest2 =>
        if isCont c1 && isCont c2 then
          let cp := (b - 0xE0) * 0x1000 + (c1 - 0x80) * 0x40 + (c2 - 0x80)
          if 0x800 ≤ cp ∧ (cp < 0xD800 ∨ 0xE000 ≤ cp) then
            match utf8Decode rest2 with
            | none => none
            | some cs => some (Char.ofNat cp :: cs)
          else none
        else none
      | _ => none
    else if b < 0xF5 then
      match rest with
      | c1 :: c2 :: c3 :: rest3 =>
        if isCont c1 && isCont c2 && isCont c3 then
          let cp := (b - 0xF0) * 0x40000 + (c1 - 0x80) * 0x1000 +
            (c2 - 0x80) * 0x40 + (c3 - 0x80)
          if 0x10000 ≤ cp ∧ cp ≤ 0x10FFFF then
            match utf8Decode rest3 with
            | none => none
            | some cs => some (Char.ofNat cp :: cs)
          else none
        else none
      | _ => none
    else none

/-! ## The typed `rmp::decode` readers

`decoder.rs` handles the numeric markers by calling `rmp::decode::read_i8`,
`read_u16`, `read_f64`. and so on *after* `self.marker()` has already
consumed the value's marker byte.  Each of those `rmp` functions itself
reads a marker and requires it to be exactly the matching one (returning
`ValueReadError::TypeMismatch` otherwise), so the embedding below reads a
second marker byte from the stream exactly as the source does. -/

/-- Embedding of the strict `rmp` readers `read_u8`/`read_u16`/`read_u32`/
`read_u64`: a marker byte that must equal `m`, then `k` data bytes
big-endian.  Any failure is `ValueError::Read` in `decoder.rs`. -/
def rmpReadUnsigned (m : Marker) (k : Nat) (bs : List Nat) : DRes Nat :=
  match readByte bs with
  | none => .err .read
  | some (b, r) =>
    if markerFromByte b = m then
      match readBE k r with
      | none => .err .read
      | some (v, rest) => .ok v rest
    else .err .read

/-- Embedding of the strict `rmp` readers `read_i8`..`read_i64`: marker
check, then `k` data bytes big-endian reinterpreted as two's complement. -/
def rmpReadSigned (m : Marker) (k : Nat) (bs : List Nat) : DRes Int :=
  match readByte bs with
  | none => .err .read
  | some (b, r) =>
    if markerFromByte b = m then
      match readBE k r with
      | none => .err .read
      | some (v, rest) => .ok (toSigned (8 * k) v) rest
    else .err .read

/-- Embedding of `rmp::decode::read_f32`/`read_f64`: marker check, then the
raw big-endian bit pattern of the float payload. -/
def rmpReadFloatBits (m : Marker) (k : Nat) (bs : List Nat) : DRes Nat :=
  match readByte bs with
  | none => .err .read
  | some (b, r) =>
    if markerFromByte b = m then
      match readBE k r with
      | none => .err .read
      | some (v, rest) => .ok v rest
    else .err .read

/-! ## The value decoder (`src/decoder.rs`)

Recursion is by an explicit fuel parameter, decremented on every recursive
`decode_inner` call; the per-container loops recurse structurally on the
element count and pass the decoding continuation unchanged.  Fuel equal to
the nesting depth plus one always suffices; exhaustion yields the distinct
`outOfFuel` outcome. -/

/-- `Decoder::decode_string`: `read_exact` into a `len`-byte buffer, then
`String::from_utf8`. -/
def decode_string (len : Nat) (bs : List Nat) : DRes String :=
  match readN len bs with
  | none => .err .io
  | some (buf, rest) =>
    match utf8Decode buf with
    | none => .err .utf8
    | some cs => .ok (String.mk cs) rest

/-- Read a `k`-byte length prefix (`read_data_u8`/`u16`/`u32`), then decode
that many payload bytes as a string: the `Str8`/`Str16`/`Str32` arms. -/
def decode_str_len (k : Nat) (bs : List Nat) : DRes String :=
  match readBE k bs with
  | none => .err .read
  | some (len, r) => decode_string len r

/-- `HashMap::insert` on the association-list model of the properties map:
replace the value of an existing key, otherwise append. -/
def insert_prop (props : List (String × Value)) (k : String) (v : Value) :
    List (String × Value) :=
  if props.any (fun p => p.1 == k) then
    props.map (fun p => if p.1 == k then (k, v) else p)
  else props ++ [(k, v)]

/-- `Decoder::decode_property`: a `FixArray(3)` marker (anything else is
`InvalidMarker`), a one-byte code that must be `0x10` (anything else hits
`unimplemented!()`, a panic), then a name coerced to `String` and a value,
both decoded by the continuation `dec` (the source's `self.decode()`). -/
def decode_property (dec : List Nat → DRes Value) (bs : List Nat) :
    DRes (String × Value) :=
  match readByte bs with
  | none => .err .markerRead
  | some (b, rest) =>
    if markerFromByte b = .FixArray 3 then
      match readByte rest with
      | none => .err .read
      | some (code, r2) =>
        if code = 0x10 then
          DRes.bind (dec r2) fun v r3 =>
            match tryIntoString v with
            | none => .err .unexpectedValue
            | some name =>
              DRes.bind (dec r3) fun value r4 => .ok (name, value) r4
        else .panic
    else .err (.invalidMarker (markerFromByte b))

/-- `Decoder::decode_properties`: decode `n` properties in order, inserting
each into the (association-list) map. -/
def decode_properties (decProp : List Nat → DRes (String × Value)) :
    Nat → List (String × Value) → List Nat → DRes (List (String × Value))
  | 0, acc, bs => .ok acc bs
  | n + 1, acc, bs =>
    DRes.bind (decProp bs) fun kv r =>
      decode_properties decProp n (insert_prop acc kv.1 kv.2) r

/-- The properties-block dispatch inside the tag-`0x1` arm of
`decode_inner`: a `FixArray`/`Array16`/`Array32` count prefix (any other
marker is `InvalidMarker`), then that many `decode_property` envelopes. -/
def decode_properties_block (dec : List Nat → DRes Value) (bs : List Nat) :
    DRes (List (String × Value)) :=
  match readByte bs with
  | none => .err .markerRead
  | some (b, rest) =>
    match markerFromByte b with
    | .FixArray n => decode_properties (decode_property dec) n [] rest
    | .Array16 =>
      match readBE 2 rest with
      | none => .err .read
      | some (n, r) => decode_properties (decode_property dec) n [] r
    | .Array32 =>
      match readBE 4 rest with
      | none => .err .read
      | some (n, r) => decode_properties (decode_property dec) n [] r
    | m => .err (.invalidMarker m)

/-- `Decoder::decode_array`: decode `n` elements in order with the
continuation `dec` (the source's `self.decode()`). -/
def decode_array (dec : List Nat → DRes Value) :
    Nat → List Nat → DRes (List Value)
  | 0, bs => .ok [] bs
  | n + 1, bs =>
    DRes.bind (dec bs) fun v r =>
      DRes.map (fun l => v :: l) (decode_array dec n r)

/-- The `FixMap` loop of `decode_inner`: for each of `n` entries decode the
value first, then the key (wire order is value-first), pushing `(key,
value)` pairs. -/
def decode_map_entries (dec : List Nat → DRes Value) :
    Nat → List Nat → DRes (List (Value × Value))
  | 0, bs => .ok [] bs
  | n + 1, bs =>
    DRes.bind (dec bs) fun v r =>
      DRes.bind (dec r) fun k r2 =>
        DRes.map (fun l => (k, v) :: l) (decode_map_entries dec n r2)

/-- Read a `k`-byte element count, then decode that many array elements:
the `Array16`/`Array32` arms. -/
def decode_array_len (dec : List Nat → DRes Value) (k : Nat) (bs : List Nat) :
    DRes (List Value) :=
  match readBE k bs with
  | none => .err .read
  | some (n, r) => decode_array dec n r

/-- `Decoder::decode_inner`.  The marker dispatch follows `decoder.rs` line
by line: a `FixArray` marker in `custom_type` mode is an extension
envelope (tag `0x1` object, `0x3`/`0x5` transparent Mapping/Listing
unwrap, `0xE` function, any other tag `unimplemented!` i.e. panic); the
numeric arms call the strict marker-checking `rmp` readers on the bytes
after the already-consumed marker; `FixMap` decodes entries value-first;
markers absent from the source's match (`Bin*`, `Ext*`, `FixExt*`,
`FixNeg`, `Reserved`, `Map16`, `Map32`) fall to
`unimplemented!("unknown marker")`, a panic. -/
def decode_inner : Nat → Bool → List Nat → DRes Value
  | 0, _, _ => .outOfFuel
  | f + 1, custom_type, bs =>
    match readByte bs with
    | none => .err .markerRead
    | some (b, rest) =>
      match markerFromByte b with
      | .FixArray n =>
        if custom_type then
          match readByte rest with
          | none => .err .read
          | some (tag, r1) =>
            if tag = 0x1 then
              DRes.bind (decode_inner f false r1) fun v1 r2 =>
                match tryIntoString v1 with
                | none => .err .unexpectedValue
                | some class_name =>
                  DRes.bind (decode_inner f false r2) fun v2 r3 =>
                    match tryIntoString v2 with
                    | none => .err .unexpectedValue
                    | some module_uri =>
                      DRes.map (fun props => .Object class_name module_uri props)
                        (decode_properties_block (decode_inner f true) r3)
            else if tag = 0x3 then decode_inner f false r1
            else if tag = 0x5 then decode_inner f false r1
            else if tag = 0xE then .ok .Function r1
            else .panic
        else DRes.map .Array (decode_array (decode_inner f true) n rest)
      | .I8 => DRes.map .Int (rmpReadSigned .I8 1 rest)
      | .I16 => DRes.map .Int (rmpReadSigned .I16 2 rest)
      | .I32 => DRes.map .Int (rmpReadSigned .I32 4 rest)
      | .I64 => DRes.map .Int (rmpReadSigned .I64 8 rest)
      | .U8 => DRes.map .Uint (rmpReadUnsigned .U8 1 rest)
      | .U16 => DRes.map .Uint (rmpReadUnsigned .U16 2 rest)
      | .U32 => DRes.map .Uint (rmpReadUnsigned .U32 4 rest)
      | .U64 => DRes.map .Uint (rmpReadUnsigned .U64 8 rest)
      | .F32 => DRes.map (Value.Float 32) (rmpReadFloatBits .F32 4 rest)
      | .F64 => DRes.map (Value.Float 64) (rmpReadFloatBits .F64 8 rest)
      | .Null => .ok .Null rest
      | .True => .ok (.Bool true) rest
      | .False => .ok (.Bool false) rest
      | .FixStr n => DRes.map .String (decode_string n rest)
      | .FixPos n => .ok (.Uint n) rest
      | .Str8 => DRes.map .String (decode_str_len 1 rest)
      | .Str16 => DRes.map .String (decode_str_len 2 rest)
      | .Str32 => DRes.map .String (decode_str_len 4 rest)
      | .FixMap n => DRes.map .Map (decode_map_entries (decode_inner f true) n rest)
      | .Array16 => DRes.map .Array (decode_array_len (decode_inner f true) 2 rest)
      | .Array32 => DRes.map .Array (decode_array_len (decode_inner f true) 4 rest)
      | _ => .panic

/-- `Decoder::decode`: the public entry point, extension interpretation
enabled. -/
def decode (fuel : Nat) (bs : List Nat) : DRes Value :=
  decode_inner fuel true bs

example : decode 3 [0x2A] = .ok (.Uint 42) [] := by rfl

example :
    decode 3 [0x81, 0x01, 0xA1, 0x61] =
      .ok (.Map [(.String "a", .Uint 1)]) [] := by rfl

example : decode 3 [0xDE, 0x00, 0x00] = .panic := by rfl

example : decode 3 [0x92, 0x0E] = .ok .Function [] := by rfl

example :
    decode 3 [0x94, 0x01,
      0xA7, 0x4D, 0x79, 0x43, 0x6C, 0x61, 0x73, 0x73,
      0xAD, 0x66, 0x69, 0x6C, 0x65, 0x3A, 0x2F, 0x2F, 0x2F, 0x6D, 0x2E,
        0x70, 0x6B, 0x6C,
      0x92,
      0x93, 0x10, 0xA1, 0x61, 0x01,
      0x93, 0x10, 0xA1, 0x62, 0xA1, 0x78] =
    .ok (.Object "MyClass" "file:///m.pkl"
      [("a", .Uint 1), ("b", .String "x")]) [] := by rfl

/-! ## Server error-string parsing (`src/errors.rs`, `PklError::parse`) -/

/-- A parsed server error: message plus optional trace. -/
structure PklError where
  message : String
  trace : Option String
  deriving DecidableEq, Repr

/-- `str::splitn(n, sep)`: split at most `n - 1` times at `sep`, the last
part keeping any remaining separators. -/
def splitn (n : Nat) (sep : Char) (s : List Char) : List (List Char) :=
  match n with
  | 0 => []
  | 1 => [s]
  | k + 2 =>
    match s.dropWhile (fun c => c ≠ sep) with
    | [] => [s]
    | _ :: tail => s.takeWhile (fun c => c ≠ sep) :: splitn (k + 1) sep tail

/-- `str::trim`: drop whitespace from both ends (the whitespace characters
relevant to the protocol's error strings: space, tab, CR, LF). -/
def trimChars (s : List Char) : List Char :=
  ((s.dropWhile Char.isWhitespace).reverse.dropWhile Char.isWhitespace).reverse

/-- `PklError::parse`: split the raw string into at most three
newline-separated parts; fewer than two parts means the whole string is the
message with no trace; otherwise the message is `parts[1]` and the trace is
`parts[2]` trimmed.  The source indexes `parts[2]` after checking only
`parts.len() < 2`, so a two-part split makes that index panic — modelled as
`none`. -/
def PklError.parse (raw : String) : Option PklError :=
  let parts := splitn 3 '\n' raw.data
  if parts.length < 2 then
    some ⟨raw, none⟩
  else
    match parts.get? 1, parts.get? 2 with
    | some msg, some tr => some ⟨String.mk msg, some (String.mk (trimChars tr))⟩
    | _, _ => none

example :
    PklError.parse "A\nmessage text\ntrace line 1\ntrace line 2" =
      some ⟨"message text", some "trace line 1\ntrace line 2"⟩ := by rfl

example : PklError.parse "A\nB" = none := by rfl

example : PklError.parse "just one line" =
    some ⟨"just one line", none⟩ := by rfl

/-! ## The message and session data model (`src/client.rs`, `src/server.rs`) -/

/-- `client.rs` `Uri`: a `file://` local path or an opaque URL. -/
inductive Uri where
  | File (path : String)
  | Url (url : String)
  deriving DecidableEq, Repr

/-- The `Display` impl for `Uri`. -/
def Uri.toString : Uri → String
  | .File p => "file://" ++ p
  | .Url u => u

/-- `client.rs` `ClientModuleReader` capability descriptor. -/
structure ClientModuleReader where
  scheme : String
  has_hierarchical_uris : Bool
  is_globbable : Bool
  is_local : Bool
  deriving DecidableEq, Repr

/-- `client.rs` `ClientResourceReader` capability descriptor. -/
structure ClientResourceReader where
  scheme : String
  has_hierarchical_uris : Bool
  is_globbable : Bool
  deriving DecidableEq, Repr

/-- `client.rs` `Proxy`. -/
structure Proxy where
  address : Option String
  no_proxy : List String
  deriving DecidableEq, Repr

/-- `client.rs` `Http` (CA bundle bytes plus proxy). -/
structure Http where
  ca_certificates : Option (List Nat)
  proxy : Option Proxy
  deriving DecidableEq, Repr

mutual
/-- `client.rs` `Project`: the resolved dependency tree passed opaquely to
evaluator creation (`ProjectType` has the single variant `Local` and is
omitted); `HashMap` modelled as an association list. -/
inductive Project where
  | mk (package_uri : Option Uri) (project_file_uri : Uri)
      (dependencies : List (String × ProjectDependency))

/-- `client.rs` `ProjectDependency`: local subtree or remote package
reference (package URI plus optional sha256 checksum). -/
inductive ProjectDependency where
  | Local (p : Project)
  | Remote (package_uri : Option Uri) (checksums : Option String)
end

/-- `client.rs` `CreateEvaluatorRequest` (all fields but `request_id`
optional, omitted when absent). -/
structure CreateEvaluatorRequest where
  request_id : Nat := 0
  allowed_modules : Option (List String) := none
  allowed_resources : Option (List String) := none
  client_module_readers : Option (List ClientModuleReader) := none
  client_resource_readers : Option (List ClientResourceReader) := none
  module_paths : Option (List String) := none
  env : Option (List (String × String)) := none
  properties : Option (List (String × String)) := none
  timeout_seconds : Option Int := none
  root_dir : Option String := none
  cache_dir : Option String := none
  output_format : Option String := none
  project : Option Project := none
  http : Option Http := none

/-- `client.rs` `EvaluateRequest`. -/
structure EvaluateRequest where
  request_id : Nat := 0
  evaluator_id : Int := 0
  module_uri : Uri := .File "/dev/null"
  module_text : Option String := none
  expr : Option String := none

/-- `server.rs` `CreateEvaluatorResponse`. -/
structure CreateEvaluatorResponse where
  request_id : Nat
  evaluator_id : Option Int
  error : Option String

/-- `server.rs` `EvaluateResponse`; `result` is the raw Value-encoded byte
buffer. -/
structure EvaluateResponse where
  request_id : Nat
  evaluator_id : Int
  result : Option (List Nat)
  error : Option String

/-! ## The evaluator session (`src/evaluator.rs`) -/

/-- `evaluator.rs` `EvalOpts`. -/
structure EvalOpts where
  allowed_modules : List String
  allowed_resources : List String
  output_format : String
  project : Option Project

/-- The `Default` impl for `EvalOpts`. -/
def EvalOpts.default : EvalOpts :=
  ⟨["pkl:"], [], "pkl", none⟩

/-- `Evaluator::gen_request_id`: return the current counter and the
incremented session state.  The increment is a Rust `u64 += 1`, which wraps
on overflow (the source notes the overflow is acceptable), modelled as
addition modulo `2^64`. -/
def gen_request_id (request_id : Nat) : Nat × Nat :=
  (request_id, (request_id + 1) % 2 ^ 64)

/-- The outcome of one `Evaluator::eval` call: success with an optional
decoded value, a parsed server error, a request-ID mismatch, a decode
error, or a panic (from `PklError::parse` or the value decoder). -/
inductive EvalResult where
  | ok (v : Option Value)
  | errPkl (e : PklError)
  | errInvalidRequestId (expected actual : Nat)
  | errValue (e : ValueError)
  | panic
  | outOfFuel
  deriving Repr

/-- One `eval` call observed from outside: the create request it sent, the
evaluate request it sent (absent when the create step failed), its result,
and the session's request-ID counter afterwards. -/
structure EvalOutcome where
  create_request : CreateEvaluatorRequest
  evaluate_request : Option EvaluateRequest
  result : EvalResult
  next_request_id : Nat

/-- `Evaluator::eval` over a mock transport: `cresp` and `eresp` are the
typed responses the transport would return for the create and evaluate
round trips (transport I/O itself is an external collaborator).  Mirrors
the source's control flow: allocate one request ID; build the create
request (project and module paths mutually exclusive); check `error`, then
`request_id`; build the evaluate request with the same request ID and the
returned evaluator ID (`unwrap_or_default`); check `error` on the evaluate
response — but not its `request_id` — then decode `result` if present. -/
def eval (fuel st : Nat) (opts : EvalOpts) (uri : Uri)
    (cresp : CreateEvaluatorResponse) (eresp : EvaluateResponse) :
    EvalOutcome :=
  let request_id := (gen_request_id st).1
  let st' := (gen_request_id st).2
  let module_paths := [uri.toString]
  let creq : CreateEvaluatorRequest :=
    { request_id := request_id
      allowed_modules := some opts.allowed_modules
      allowed_resources := some opts.allowed_resources
      output_format := some opts.output_format
      project := opts.project
      module_paths := if opts.project.isSome then none else some module_paths }
  match cresp.error with
  | some message =>
    match PklError.parse message with
    | none => ⟨creq, none, .panic, st'⟩
    | some e => ⟨creq, none, .errPkl e, st'⟩
  | none =>
    if cresp.request_id ≠ request_id then
      ⟨creq, none, .errInvalidRequestId request_id cresp.request_id, st'⟩
    else
      let ereq : EvaluateRequest :=
        { request_id := request_id
          evaluator_id := cresp.evaluator_id.getD 0
          module_uri := uri
          module_text := none
          expr := some "output.value" }
      match eresp.error with
      | some message =>
        match PklError.parse message with
        | none => ⟨creq, some ereq, .panic, st'⟩
        | some e => ⟨creq, some ereq, .errPkl e, st'⟩
      | none =>
        match eresp.result with
        | some bytes =>
          match decode fuel bytes with
          | .ok v _ => ⟨creq, some ereq, .ok (some v), st'⟩
          | .err e => ⟨creq, some ereq, .errValue e, st'⟩
          | .panic => ⟨creq, some ereq, .panic, st'⟩
          | .outOfFuel => ⟨creq, some ereq, .outOfFuel, st'⟩
        | none => ⟨creq, some ereq, .ok none, st'⟩

example :
    (eval 1 0 EvalOpts.default (Uri.File "m")
      ⟨0, some 7, none⟩ ⟨0, 7, some [0x2A], none⟩).result =
    .ok (some (.Uint 42)) := by rfl

example :
    (eval 1 0 EvalOpts.default (Uri.File "m")
      ⟨99, some 7, none⟩ ⟨0, 7, some [0x2A], none⟩).result =
    .errInvalidRequestId 0 99 := by rfl

/-! ## Inversion helpers for decode outcomes -/

/-- A bound decoding step succeeds exactly when the first step succeeds and
the continuation succeeds on its output. -/
theorem DRes.bind_eq_ok {α β : Type} {d : DRes α} {k : α → List Nat → DRes β}
    {v : β} {r : List Nat} :
    DRes.bind d k = .ok v r ↔ ∃ a ra, d = .ok a ra ∧ k a ra = .ok v r := by
  cases d <;> simp [DRes.bind] <;> aesop

/-- A mapped decoding step succeeds exactly when the underlying step does,
with the function applied to its value. -/
theorem DRes.map_eq_ok {α β : Type} {g : α → β} {d : DRes α} {v : β}
    {r : List Nat} :
    DRes.map g d = .ok v r ↔ ∃ a, d = .ok a r ∧ v = g a := by
  cases d <;> simp [DRes.map] <;> aesop

/-- The string coercion of `server.rs` succeeds exactly on `String` values. -/
theorem tryIntoString_eq_some {v : Value} {s : String} :
    tryIntoString v = some s ↔ v = .String s := by
  cases v <;> simp [tryIntoString]

/-! ## Claims -/

/-- Claim C1: a well-formed tag-`0x1` extension envelope decodes its class
name and module URI first, as plain strings with extension interpretation
disabled, then a length-prefixed properties block, and assembles the
`Object` from exactly those components with the block's unconsumed tail;
and each `0x10` property envelope binds a name (a decoded value coerced to
string) to a fully decoded value. -/
theorem spec_C1 :
    (∀ f b n bs c m props r1 r2 rest,
      markerFromByte b = .FixArray n →
      decode_inner f false bs = .ok (.String c) r1 →
      decode_inner f false r1 = .ok (.String m) r2 →
      decode_properties_block (decode_inner f true) r2 = .ok props rest →
      decode_inner (f + 1) true (b :: 0x1 :: bs) =
        .ok (.Object c m props) rest) ∧
    (∀ f bs name r1 v r2,
      decode_inner f true bs = .ok (.String name) r1 →
      decode_inner f true r1 = .ok v r2 →
      decode_property (decode_inner f true) (0x93 :: 0x10 :: bs) =
        .ok (name, v) r2) := by
  constructor
  · intro f b n bs c m props r1 r2 rest hb h1 h2 h3
    simp [decode_inner, readByte, hb, h1, h2, h3, DRes.bind, DRes.map,
      tryIntoString]
  · intro f bs name r1 v r2 h1 h2
    simp [decode_property, readByte, h1, h2, DRes.bind, tryIntoString,
      show markerFromByte 0x93 = .FixArray 3 by rfl]

/-- Claim C1 witness: the specification's concrete envelope
`[tag=0x1, "MyClass", "file:///m.pkl", [{0x10,"a",1},{0x10,"b","x"}]]`
decodes to the expected `Object`. -/
theorem spec_C1_witness :
    decode_inner (2 + 1) true
      [0x94, 0x01,
        0xA7, 0x4D, 0x79, 0x43, 0x6C, 0x61, 0x73, 0x73,
        0xAD, 0x66, 0x69, 0x6C, 0x65, 0x3A, 0x2F, 0x2F, 0x2F, 0x6D, 0x2E,
          0x70, 0x6B, 0x6C,
        0x92,
        0x93, 0x10, 0xA1, 0x61, 0x01,
        0x93, 0x10, 0xA1, 0x62, 0xA1, 0x78] =
      .ok (.Object "MyClass" "file:///m.pkl"
        [("a", .Uint 1), ("b", .String "x")]) [] :=
  spec_C1.1 2 0x94 4
    [0xA7, 0x4D, 0x79, 0x43, 0x6C, 0x61, 0x73, 0x73,
      0xAD, 0x66, 0x69, 0x6C, 0x65, 0x3A, 0x2F, 0x2F, 0x2F, 0x6D, 0x2E,
        0x70, 0x6B, 0x6C,
      0x92,
      0x93, 0x10, 0xA1, 0x61, 0x01,
      0x93, 0x10, 0xA1, 0x62, 0xA1, 0x78]
    "MyClass" "file:///m.pkl" [("a", .Uint 1), ("b", .String "x")]
    [0xAD, 0x66, 0x69, 0x6C, 0x65, 0x3A, 0x2F, 0x2F, 0x2F, 0x6D, 0x2E,
      0x70, 0x6B, 0x6C,
      0x92,
      0x93, 0x10, 0xA1, 0x61, 0x01,
      0x93, 0x10, 0xA1, 0x62, 0xA1, 0x78]
    [0x92,
      0x93, 0x10, 0xA1, 0x61, 0x01,
      0x93, 0x10, 0xA1, 0x62, 0xA1, 0x78]
    [] (by rfl) (by rfl) (by rfl) (by rfl)

/-- Claim C2: the value decoder is claimed never to panic, returning
decode-error values instead.  The code disagrees: a `Bin8` marker (not in
the supported set), an extension tag other than `0x1`/`0x3`/`0x5`/`0xE`,
and a property envelope code other than `0x10` each hit an
`unimplemented!` macro, which panics.  Truncated input, by contrast, does
return an error, as does a malformed property-envelope marker. -/
theorem spec_C2 :
    decode 1 [0xC4, 0x00] = .panic ∧
    decode 1 [0x92, 0x02] = .panic ∧
    decode_property (decode 1) [0x93, 0x11] = .panic ∧
    decode 1 [] = .err .markerRead ∧
    decode_property (decode 1) [0x2A] = .err (.invalidMarker (.FixPos 42)) :=
  ⟨rfl, rfl, rfl, rfl, rfl⟩

/-- Claim C3 (amended): every fixed-size map marker decodes to a `Map` by
running the entry loop with the fully extension-aware decoder (first part),
and the loop reads each entry from the wire value first, then key, storing
the `(key, value)` pair (second part).  The 16- and 32-bit length-prefixed
map markers are not decoded (see the counterexample: they panic). -/
theorem spec_C3 :
    (∀ f ct b n rest, markerFromByte b = .FixMap n →
      decode_inner (f + 1) ct (b :: rest) =
        DRes.map .Map (decode_map_entries (decode_inner f true) n rest)) ∧
    (∀ (dec : List Nat → DRes Value) n bs v r k r2 entries r3,
      dec bs = .ok v r → dec r = .ok k r2 →
      decode_map_entries dec n r2 = .ok entries r3 →
      decode_map_entries dec (n + 1) bs = .ok ((k, v) :: entries) r3) := by
  constructor
  · intro f ct b n rest hb
    cases ct <;> simp [decode_inner, readByte, hb]
  · intro dec n bs v r k r2 entries r3 h1 h2 h3
    simp [decode_map_entries, h1, h2, h3, DRes.bind, DRes.map]

/-- Claim C3 witness: the dispatch and the entry loop instantiated on a
concrete two-entry fixed-size map, whose wire entries are value-then-key. -/
theorem spec_C3_witness :
    (decode_inner (1 + 1) true [0x82, 0x01, 0xA1, 0x61, 0xA1, 0x78, 0xA1, 0x62] =
      DRes.map .Map (decode_map_entries (decode_inner 1 true) 2
        [0x01, 0xA1, 0x61, 0xA1, 0x78, 0xA1, 0x62])) ∧
    (decode_map_entries (decode 1) (1 + 1)
        [0x01, 0xA1, 0x61, 0xA1, 0x78, 0xA1, 0x62] =
      .ok [(.String "a", .Uint 1), (.String "b", .String "x")] []) :=
  ⟨spec_C3.1 1 true 0x82 2 [0x01, 0xA1, 0x61, 0xA1, 0x78, 0xA1, 0x62] (by rfl),
    spec_C3.2 (decode 1) 1 [0x01, 0xA1, 0x61, 0xA1, 0x78, 0xA1, 0x62]
      (.Uint 1) [0xA1, 0x61, 0xA1, 0x78, 0xA1, 0x62]
      (.String "a") [0xA1, 0x78, 0xA1, 0x62]
      [(.String "b", .String "x")] []
      (by rfl) (by rfl) (by rfl)⟩

/-- Claim C3 counterexample: the 16-bit and 32-bit length-prefixed map
markers (here both with entry count 0, which the claim says decode to an
empty `Map`) fall into the decoder's unknown-marker `unimplemented!` arm:
a panic, not a `Map`. -/
theorem spec_C3_counterexample :
    decode 2 [0xDE, 0x00, 0x00] = .panic ∧
    decode 2 [0xDF, 0x00, 0x00, 0x00, 0x00] = .panic :=
  ⟨rfl, rfl⟩

/-- Claim C4: the evaluate step is claimed to verify the evaluate-response's
`requestId` as the create step does.  The code does not: an
evaluate-response carrying `requestId` 99 for a request sent with ID 0 is
accepted and its result decoded (first conjunct), while the same mismatch
on the create-response fails with the mismatch error (second conjunct). -/
theorem spec_C4 :
    (eval 1 0 EvalOpts.default (Uri.File "m")
        ⟨0, some 7, none⟩ ⟨99, 7, some [0x2A], none⟩).result =
      .ok (some (.Uint 42)) ∧
    (eval 1 0 EvalOpts.default (Uri.File "m")
        ⟨99, some 7, none⟩ ⟨0, 7, some [0x2A], none⟩).result =
      .errInvalidRequestId 0 99 :=
  ⟨rfl, rfl⟩

/-- Is this marker a fixed-size-array marker (the only marker class whose
interpretation depends on the extension mode)? -/
def isFixArrayMarker : Marker → Bool
  | .FixArray _ => true
  | _ => false

/-- Claim C5 (amended): a Mapping (`0x3`) or Listing (`0x5`) envelope
decodes its payload with extension interpretation disabled at the payload's
own marker (first part); for a payload whose own marker is not a fixed-size
array marker — in particular every map marker and the 16/32-bit array
markers — that is the same as decoding the payload bytes directly, since
only the fixed-size-array dispatch consults the extension mode (second
part). -/
theorem spec_C5 :
    (∀ f b n rest, markerFromByte b = .FixArray n →
      decode_inner (f + 1) true (b :: 0x3 :: rest) =
        decode_inner f false rest ∧
      decode_inner (f + 1) true (b :: 0x5 :: rest) =
        decode_inner f false rest) ∧
    (∀ f b rest, isFixArrayMarker (markerFromByte b) = false →
      decode_inner f false (b :: rest) = decode_inner f true (b :: rest)) := by
  constructor
  · intro f b n rest hb
    constructor <;> simp [decode_inner, readByte, hb]
  · intro f b rest h
    cases f with
    | zero => rfl
    | succ f' =>
      cases hm : markerFromByte b with
      | FixArray n => rw [hm] at h; simp [isFixArrayMarker] at h
      | _ => simp only [decode_inner, readByte, hm]

/-- Claim C5 witness: a Mapping envelope around a fixed-size map decodes to
what the bare payload decodes to, instantiated at the two-entry map bytes
`[0x81, 0x01, 0xA1, 0x61]`. -/
theorem spec_C5_witness :
    (decode_inner (2 + 1) true [0x92, 0x03, 0x81, 0x01, 0xA1, 0x61] =
      decode_inner 2 false [0x81, 0x01, 0xA1, 0x61]) ∧
    (decode_inner 2 false [0x81, 0x01, 0xA1, 0x61] =
      decode_inner 2 true [0x81, 0x01, 0xA1, 0x61]) :=
  ⟨(spec_C5.1 2 0x92 2 [0x81, 0x01, 0xA1, 0x61] (by rfl)).1,
    spec_C5.2 2 0x81 [0x01, 0xA1, 0x61] (by rfl)⟩

/-- Claim C5 counterexample: for a fixed-size-array payload the envelope is
not transparent in the claimed sense.  `[tag=0x3, [1]]` decodes to the
plain array `[Uint 1]`, but decoding the payload bytes `[0x91, 0x01]`
directly re-enters extension interpretation, consumes `0x01` as an
extension tag, and fails — a different outcome. -/
theorem spec_C5_counterexample :
    decode 3 [0x92, 0x03, 0x91, 0x01] = .ok (.Array [.Uint 1]) [] ∧
    decode 3 [0x91, 0x01] = .err .markerRead :=
  ⟨rfl, rfl⟩

/-- Reading characters up to a separator that none of `a` matches yields
exactly `a`. -/
theorem takeWhile_append_sep (sep : Char) (a r : List Char) (h : sep ∉ a) :
    (a ++ sep :: r).takeWhile (fun c => c ≠ sep) = a := by
  induction a with
  | nil => simp
  | cons x xs ih =>
    have hx : x ≠ sep := fun e => h (by simp [e])
    have h2 : sep ∉ xs := fun hm => h (List.mem_cons_of_mem _ hm)
    simp only [List.cons_append, List.takeWhile_cons]
    simp only [hx, decide_not, decide_eq_false, Bool.not_false, ite_true]
    rw [show (fun c => !decide (c = sep)) = (fun c => decide (c ≠ sep)) by
      funext c
      simp [decide_not]]
    rw [ih h2]
    simp

/-- Dropping characters up to a separator that none of `a` matches leaves
the separator and the remainder. -/
theorem dropWhile_append_sep (sep : Char) (a r : List Char) (h : sep ∉ a) :
    (a ++ sep :: r).dropWhile (fun c => c ≠ sep) = sep :: r := by
  induction a with
  | nil => simp
  | cons x xs ih =>
    have hx : x ≠ sep := fun e => h (by simp [e])
    have h2 : sep ∉ xs := fun hm => h (List.mem_cons_of_mem _ hm)
    simp only [List.cons_append, List.dropWhile_cons]
    simp only [hx, decide_not, decide_eq_false, Bool.not_false, ite_true]
    rw [show (fun c => !decide (c = sep)) = (fun c => decide (c ≠ sep)) by
      funext c
      simp [decide_not]]
    rw [ih h2]
    simp

/-- A separator-free string survives `dropWhile` entirely. -/
theorem dropWhile_no_sep (sep : Char) (s : List Char) (h : sep ∉ s) :
    s.dropWhile (fun c => c ≠ sep) = [] := by
  induction s with
  | nil => simp
  | cons x xs ih =>
    have hx : x ≠ sep := fun e => h (by simp [e])
    have h2 : sep ∉ xs := fun hm => h (List.mem_cons_of_mem _ hm)
    simp only [List.dropWhile_cons]
    simp only [hx, decide_not, decide_eq_false, Bool.not_false, ite_true]
    rw [show (fun c => !decide (c = sep)) = (fun c => decide (c ≠ sep)) by
      funext c
      simp [decide_not]]
    rw [ih h2]
    simp

/-- A three-way `splitn` of a string with two (first) separators: the two
separator-free prefixes and the unsplit remainder. -/
theorem splitn3_two_seps (sep : Char) (a b c : List Char)
    (ha : sep ∉ a) (hb : sep ∉ b) :
    splitn 3 sep (a ++ sep :: (b ++ sep :: c)) = [a, b, c] := by
  simp only [splitn, dropWhile_append_sep sep a _ ha,
    takeWhile_append_sep sep a _ ha, dropWhile_append_sep sep b _ hb,
    takeWhile_append_sep sep b _ hb]

/-- A three-way `splitn` of a string with exactly one separator yields two
parts. -/
theorem splitn3_one_sep (sep : Char) (a b : List Char)
    (ha : sep ∉ a) (hb : sep ∉ b) :
    splitn 3 sep (a ++ sep :: b) = [a, b] := by
  simp only [splitn, dropWhile_append_sep sep a _ ha,
    takeWhile_append_sep sep a _ ha, dropWhile_no_sep sep b hb]

/-- A three-way `splitn` of a separator-free string yields one part. -/
theorem splitn3_no_sep (sep : Char) (s : List Char) (hs : sep ∉ s) :
    splitn 3 sep s = [s] := by
  simp only [splitn, dropWhile_no_sep sep s hs]

/-- Claim C6 (amended): when the raw error string contains at least two
newlines, the parsed message is line 2 and the trace is the remainder from
line 3 with surrounding whitespace trimmed; when it contains no newline,
the whole string is the message and there is no trace.  A string with
exactly one newline is not parsed at all: the code panics on it (claim
C10), so the claim's ≥2-lines case holds only from three split parts
upwards. -/
theorem spec_C6 (a b c s : List Char) (ha : '\n' ∉ a) (hb : '\n' ∉ b)
    (hs : '\n' ∉ s) :
    PklError.parse (String.mk (a ++ '\n' :: (b ++ '\n' :: c))) =
      some ⟨String.mk b, some (String.mk (trimChars c))⟩ ∧
    PklError.parse (String.mk s) = some ⟨String.mk s, none⟩ ∧
    PklError.parse (String.mk (a ++ '\n' :: b)) = none := by
  refine ⟨?_, ?_, ?_⟩
  · simp [PklError.parse, splitn3_two_seps _ a b c ha hb]
  · simp [PklError.parse, splitn3_no_sep _ s hs]
  · simp [PklError.parse, splitn3_one_sep _ a b ha hb]

/-- Claim C6 witness: the specification's concrete example — message is
line 2, trace is lines 3 onward. -/
theorem spec_C6_witness :
    PklError.parse (String.mk ("A".data ++ '\n' ::
        ("message text".data ++ '\n' :: "trace line 1\ntrace line 2".data))) =
      some ⟨String.mk "message text".data,
        some (String.mk (trimChars "trace line 1\ntrace line 2".data))⟩ :=
  (spec_C6 "A".data "message text".data "trace line 1\ntrace line 2".data
    "x".data (by decide) (by decide) (by decide)).1

/-- Claim C6 counterexample: the claim's at-least-two-lines case fails on a
string with exactly two lines.  The claim predicts a parsed result whose
message is line 2 (`"B"`); the code instead panics indexing the missing
third split part (`none` in the model). -/
theorem spec_C6_counterexample :
    PklError.parse "A\nB" = none ∧
    ∀ e : PklError, PklError.parse "A\nB" ≠ some e := by
  refine ⟨rfl, ?_⟩
  intro e h
  rw [show PklError.parse (String.mk ['A', '\n', 'B']) = none from rfl] at h
  cases h

/-- Claim C7 (amended): every `Object` returned at any decoding position
arises from a tag-`0x1` extension envelope in extension-aware mode, with
the class name decoded first, the module URI second (both plain strings,
possibly empty — the decoder does not enforce non-emptiness) and the
properties block fully decoded from the remaining bytes before the
`Object` value exists. -/
theorem spec_C7 {f : Nat} {ct : Bool} {bs : List Nat} {c m : String}
    {props : List (String × Value)} {rest : List Nat}
    (h : decode_inner f ct bs = .ok (.Object c m props) rest) :
    ct = true ∧
    ∃ f' b n r1 r2 r3,
      f = f' + 1 ∧
      bs = b :: 0x1 :: r1 ∧
      markerFromByte b = .FixArray n ∧
      decode_inner f' false r1 = .ok (.String c) r2 ∧
      decode_inner f' false r2 = .ok (.String m) r3 ∧
      decode_properties_block (decode_inner f' true) r3 = .ok props rest := by
  induction f generalizing ct bs c m props rest with
  | zero => simp [decode_inner] at h
  | succ f' ih =>
    cases bs with
    | nil => simp [decode_inner, readByte] at h
    | cons b rest0 =>
      simp only [decode_inner, readByte] at h
      cases hm : markerFromByte b with
      | FixArray n =>
        rw [hm] at h
        cases ct with
        | false =>
          simp only [Bool.false_eq_true, if_false, DRes.map_eq_ok] at h
          obtain ⟨a, _, habs⟩ := h
          cases habs
        | true =>
          simp only [if_true] at h
          cases rest0 with
          | nil => simp [readByte] at h
          | cons tag r1 =>
            simp only [readByte] at h
            by_cases h1 : tag = 0x1
            · subst h1
              simp only [eq_self_iff_true, if_true] at h
              rw [DRes.bind_eq_ok] at h
              obtain ⟨v1, r2, hv1, h⟩ := h
              cases hs1 : tryIntoString v1 with
              | none => rw [hs1] at h; cases h
              | some cn =>
                rw [hs1] at h
                rw [DRes.bind_eq_ok] at h
                obtain ⟨v2, r3, hv2, h⟩ := h
                cases hs2 : tryIntoString v2 with
                | none => rw [hs2] at h; cases h
                | some mu =>
                  rw [hs2] at h
                  rw [DRes.map_eq_ok] at h
                  obtain ⟨p, hp, heq⟩ := h
                  injection heq with e1 e2 e3
                  subst e1
                  subst e2
                  subst e3
                  rw [tryIntoString_eq_some] at hs1 hs2
                  subst hs1
                  subst hs2
                  exact ⟨rfl, f', b, n, r1, r2, r3, rfl, rfl, hm, hv1, hv2, hp⟩
            · by_cases h3 : tag = 0x3
              · subst h3
                simp only [if_neg h1, eq_self_iff_true, if_true] at h
                obtain ⟨hct, -⟩ := ih h
                cases hct
              · by_cases h5 : tag = 0x5
                · subst h5
                  simp only [if_neg h1, if_neg h3, eq_self_iff_true, if_true] at h
                  obtain ⟨hct, -⟩ := ih h
                  cases hct
                · by_cases he : tag = 0xE
                  · subst he
                    simp only [if_neg h1, if_neg h3, if_neg h5, eq_self_iff_true, if_true] at h
                    cases h
                  · simp only [if_neg h1, if_neg h3, if_neg h5, if_neg he] at h
                    cases h
      | FixPos n => rw [hm] at h; cases h
      | Null => rw [hm] at h; cases h
      | True => rw [hm] at h; cases h
      | False => rw [hm] at h; cases h
      | FixNeg n => rw [hm] at h; cases h
      | Reserved => rw [hm] at h; cases h
      | Bin8 => rw [hm] at h; cases h
      | Bin16 => rw [hm] at h; cases h
      | Bin32 => rw [hm] at h; cases h
      | Ext8 => rw [hm] at h; cases h
      | Ext16 => rw [hm] at h; cases h
      | Ext32 => rw [hm] at h; cases h
      | FixExt1 => rw [hm] at h; cases h
      | FixExt2 => rw [hm] at h; cases h
      | FixExt4 => rw [hm] at h; cases h
      | FixExt8 => rw [hm] at h; cases h
      | FixExt16 => rw [hm] at h; cases h
      | Map16 => rw [hm] at h; cases h
      | Map32 => rw [hm] at h; cases h
      | I8 =>
        rw [hm] at h
        rw [DRes.map_eq_ok] at h
        obtain ⟨a, -, habs⟩ := h
        cases habs
      | I16 =>
        rw [hm] at h
        rw [DRes.map_eq_ok] at h
        obtain ⟨a, -, habs⟩ := h
        cases habs
      | I32 =>
        rw [hm] at h
        rw [DRes.map_eq_ok] at h
        obtain ⟨a, -, habs⟩ := h
        cases habs
      | I64 =>
        rw [hm] at h
        rw [DRes.map_eq_ok] at h
        obtain ⟨a, -, habs⟩ := h
        cases habs
      | U8 =>
        rw [hm] at h
        rw [DRes.map_eq_ok] at h
        obtain ⟨a, -, habs⟩ := h
        cases habs
      | U16 =>
        rw [hm] at h
        rw [DRes.map_eq_ok] at h
        obtain ⟨a, -, habs⟩ := h
        cases habs
      | U32 =>
        rw [hm] at h
        rw [DRes.map_eq_ok] at h
        obtain ⟨a, -, habs⟩ := h
        cases habs
      | U64 =>
        rw [hm] at h
        rw [DRes.map_eq_ok] at h
        obtain ⟨a, -, habs⟩ := h
        cases habs
      | F32 =>
        rw [hm] at h
        rw [DRes.map_eq_ok] at h
        obtain ⟨a, -, habs⟩ := h
        cases habs
      | F64 =>
        rw [hm] at h
        rw [DRes.map_eq_ok] at h
        obtain ⟨a, -, habs⟩ := h
        cases habs
      | FixStr n =>
        rw [hm] at h
        rw [DRes.map_eq_ok] at h
        obtain ⟨a, -, habs⟩ := h
        cases habs
      | Str8 =>
        rw [hm] at h
        rw [DRes.map_eq_ok] at h
        obtain ⟨a, -, habs⟩ := h
        cases habs
      | Str16 =>
        rw [hm] at h
        rw [DRes.map_eq_ok] at h
        obtain ⟨a, -, habs⟩ := h
        cases habs
      | Str32 =>
        rw [hm] at h
        rw [DRes.map_eq_ok] at h
        obtain ⟨a, -, habs⟩ := h
        cases habs
      | FixMap n =>
        rw [hm] at h
        rw [DRes.map_eq_ok] at h
        obtain ⟨a, -, habs⟩ := h
        cases habs
      | Array16 =>
        rw [hm] at h
        rw [DRes.map_eq_ok] at h
        obtain ⟨a, -, habs⟩ := h
        cases habs
      | Array32 =>
        rw [hm] at h
        rw [DRes.map_eq_ok] at h
        obtain ⟨a, -, habs⟩ := h
        cases habs

/-- Claim C7 witness: the inversion applied to a concrete decoded object
(whose class name and module URI happen to be empty). -/
theorem spec_C7_witness :
    true = true ∧
    ∃ f' b n r1 r2 r3,
      (2 : Nat) = f' + 1 ∧
      ([0x92, 0x01, 0xA0, 0xA0, 0x90] : List Nat) = b :: 0x1 :: r1 ∧
      markerFromByte b = .FixArray n ∧
      decode_inner f' false r1 = .ok (.String "") r2 ∧
      decode_inner f' false r2 = .ok (.String "") r3 ∧
      decode_properties_block (decode_inner f' true) r3 =
        .ok ([] : List (String × Value)) [] :=
  spec_C7 (by rfl)

/-- Claim C7 counterexample: the decoder happily produces an `Object` whose
`className` and `moduleUri` are both the empty string, so the claimed
non-emptiness invariant does not hold. -/
theorem spec_C7_counterexample :
    decode 2 [0x92, 0x01, 0xA0, 0xA0, 0x90] = .ok (.Object "" "" []) [] ∧
    ("" : String).length = 0 :=
  ⟨rfl, rfl⟩

/-- Every `eval` call uses the pre-call counter as the request ID of the
create request it sends and of the evaluate request when one is sent, and
leaves the counter incremented (modulo `2^64`) — uniformly across all
control-flow branches. -/
theorem eval_request_ids (fuel st : Nat) (opts : EvalOpts) (uri : Uri)
    (cresp : CreateEvaluatorResponse) (eresp : EvaluateResponse) :
    (eval fuel st opts uri cresp eresp).create_request.request_id = st ∧
    (eval fuel st opts uri cresp eresp).next_request_id = (st + 1) % 2 ^ 64 ∧
    (∀ r, (eval fuel st opts uri cresp eresp).evaluate_request = some r →
      r.request_id = st) := by
  cases hce : cresp.error with
  | some message =>
    cases hp : PklError.parse message <;>
      simp [eval, hce, hp, gen_request_id]
  | none =>
    by_cases hid : cresp.request_id = st
    · cases hee : eresp.error with
      | some message =>
        cases hp : PklError.parse message <;>
          simp [eval, hce, hee, hid, hp, gen_request_id]
      | none =>
        cases hres : eresp.result with
        | some bytes =>
          cases hdec : decode fuel bytes <;>
            simp [eval, hce, hee, hid, hres, hdec, gen_request_id]
        | none => simp [eval, hce, hee, hid, hres, gen_request_id]
    · simp [eval, hce, hid, gen_request_id]

/-- Claim C8: when the evaluate-response carries no error, a present
`result` buffer is decoded with the value decoder and returned as `Some`,
and an absent `result` returns success with no value. -/
theorem spec_C8 (fuel st : Nat) (opts : EvalOpts) (uri : Uri)
    (cresp : CreateEvaluatorResponse) (eresp : EvaluateResponse)
    (hce : cresp.error = none) (hcid : cresp.request_id = st)
    (hee : eresp.error = none) :
    (∀ bytes v r, eresp.result = some bytes → decode fuel bytes = .ok v r →
      (eval fuel st opts uri cresp eresp).result = .ok (some v)) ∧
    (eresp.result = none →
      (eval fuel st opts uri cresp eresp).result = .ok none) := by
  constructor
  · intro bytes v r hres hdec
    simp [eval, gen_request_id, hce, hcid, hee, hres, hdec]
  · intro hres
    simp [eval, gen_request_id, hce, hcid, hee, hres]

/-- Claim C8 witness: the specification's mock happy path — create-response
`{requestId 0, evaluatorId 7}` then evaluate-response with `result`
`Some(encoded Uint 42)` — returns `Some(Uint 42)`. -/
theorem spec_C8_witness :
    (eval 1 0 EvalOpts.default (Uri.File "m")
        ⟨0, some 7, none⟩ ⟨0, 7, some [0x2A], none⟩).result =
      .ok (some (.Uint 42)) :=
  (spec_C8 1 0 EvalOpts.default (Uri.File "m") ⟨0, some 7, none⟩
    ⟨0, 7, some [0x2A], none⟩ rfl rfl rfl).1 [0x2A] (.Uint 42) [] rfl rfl

/-- Claim C9: one `eval` call allocates exactly one request ID — the
session counter — using it for both the create and the evaluate request,
and leaves the counter incremented modulo `2^64`, so a second call uses
`(st + 1) % 2^64`: always distinct from `st`, and strictly greater
whenever the increment does not wrap. -/
theorem spec_C9 (fuel st : Nat) (opts opts2 : EvalOpts) (uri uri2 : Uri)
    (cr cr2 : CreateEvaluatorResponse) (er er2 : EvaluateResponse)
    (h : st < 2 ^ 64) :
    (eval fuel st opts uri cr er).create_request.request_id = st ∧
    (∀ r, (eval fuel st opts uri cr er).evaluate_request = some r →
      r.request_id = st) ∧
    (eval fuel st opts uri cr er).next_request_id = (st + 1) % 2 ^ 64 ∧
    (eval fuel (eval fuel st opts uri cr er).next_request_id opts2 uri2
        cr2 er2).create_request.request_id = (st + 1) % 2 ^ 64 ∧
    st ≠ (st + 1) % 2 ^ 64 ∧
    (st + 1 < 2 ^ 64 → st < (st + 1) % 2 ^ 64) := by
  obtain ⟨h1, h2, h3⟩ := eval_request_ids fuel st opts uri cr er
  obtain ⟨h1', -, -⟩ := eval_request_ids fuel
    ((eval fuel st opts uri cr er).next_request_id) opts2 uri2 cr2 er2
  refine ⟨h1, h3, h2, by rw [h1', h2], ?_, ?_⟩
  · rcases Nat.lt_or_ge (st + 1) (2 ^ 64) with hlt | hge
    · rw [Nat.mod_eq_of_lt hlt]
      omega
    · have heq : st + 1 = 2 ^ 64 := by omega
      rw [heq, Nat.mod_self]
      omega
  · intro hlt
    rw [Nat.mod_eq_of_lt hlt]
    omega

/-- Claim C9 witness: starting from a fresh session (counter 0), the first
call's requests carry ID 0 and the second call's create request carries
ID 1. -/
theorem spec_C9_witness :
    (eval 1 0 EvalOpts.default (Uri.File "m")
        ⟨0, some 7, none⟩ ⟨0, 7, none, none⟩).create_request.request_id = 0 ∧
    (∀ r, (eval 1 0 EvalOpts.default (Uri.File "m")
        ⟨0, some 7, none⟩ ⟨0, 7, none, none⟩).evaluate_request = some r →
      r.request_id = 0) ∧
    (eval 1 0 EvalOpts.default (Uri.File "m")
        ⟨0, some 7, none⟩ ⟨0, 7, none, none⟩).next_request_id = (0 + 1) % 2 ^ 64 ∧
    (eval 1 (eval 1 0 EvalOpts.default (Uri.File "m")
        ⟨0, some 7, none⟩ ⟨0, 7, none, none⟩).next_request_id
      EvalOpts.default (Uri.File "m")
        ⟨1, some 7, none⟩ ⟨1, 7, none, none⟩).create_request.request_id =
      (0 + 1) % 2 ^ 64 ∧
    (0 : Nat) ≠ (0 + 1) % 2 ^ 64 ∧
    ((0 : Nat) + 1 < 2 ^ 64 → (0 : Nat) < (0 + 1) % 2 ^ 64) :=
  spec_C9 1 0 EvalOpts.default EvalOpts.default (Uri.File "m") (Uri.File "m")
    ⟨0, some 7, none⟩ ⟨1, some 7, none⟩ ⟨0, 7, none, none⟩ ⟨1, 7, none, none⟩
    (by decide)

/-- Claim C10: `PklError::parse` on a string with exactly one newline
produces a two-part split, passes the `parts.len() < 2` guard, and then
indexes the non-existent `parts[2]`: an out-of-bounds panic (`none` in the
model) instead of a parsed error without a trace.  A single-line string,
by contrast, parses fine. -/
theorem spec_C10 :
    PklError.parse "A\nB" = none ∧
    PklError.parse "A" = some ⟨"A", none⟩ :=
  ⟨rfl, rfl⟩

end RustPkl
